import Mathlib

/-!
Verification of the point-ledger core of `src/index.ts` (class `PointSystem`).

The class keeps `private points: Points = {}` with
`type Points = Record<string, PointData>` and
`type PointData = { score: number; lastClaimedAt: string }`.

Modelling choices, each matched to the source:

* `Points` is the association list of the object's own enumerable string
  properties in enumeration order.  Every key the program uses is a Discord
  snowflake (a decimal string whose numeric value exceeds 2^53 - 1) or an
  arbitrary non-numeric string, so none is an ECMAScript integer index and
  enumeration order is insertion order; `Object.entries`, property insertion
  (`this.points[id] = ...`) and in-place record mutation all act on that list.
* JavaScript numbers that the program stores in `score` are integers (the
  field starts at `0` and only ever receives `score + 1`), modelled as `Int`.
* Instants are modelled as `Int` milliseconds since the Unix epoch, the value
  of `Date.prototype.getTime`.  The code stores `new Date(ms).toISOString()`
  and reads it back with `new Date(s).getTime()`; `toISOString` is an
  injective text encoding of the millisecond value and the library guarantees
  the read recovers `ms` exactly.  The model replaces the ISO-8601 text by the
  decimal numeral of `ms` - an equally injective encoding with the same
  round-trip law, which is the only property of the text the code relies on.
* The cooldown test `(now - last) / 3600000 >= 24` is computed by the code in
  IEEE doubles; both operands are integral millisecond values of magnitude
  at most 8.64e15, the divisor and the bound are exact, and the quotient is
  more than 1e-7 away from 24 whenever the integer comparison is within one
  of the boundary, so the float comparison agrees with the exact integer
  comparison `24 * 3600000 <= now - last` used here.
* Each call of `new Date()` is a read of the ambient clock.
  `tryClaimPoints` performs two such reads - one inside `canClaimPoints` and
  one when writing `lastClaimedAt` - so its model takes both instants
  (`now1` then `now2`, with `now1 <= now2` in any real execution).
* A successful claim calls `savePoints`, which writes
  `JSON.stringify(this.points, null, 2)`; the model records the structure of
  that write as a `Json` value.
-/

/-- Decimal digit character, `Char.ofNat (48 + n)` for a digit value `n`. -/
def digitChar (n : Nat) : Char := Char.ofNat (48 + n)

/-- Big-endian decimal digit list of a natural number, with explicit fuel so
that the recursion is structural (the kernel can evaluate it); `n + 1` units
of fuel always suffice since `n / 10 < n` for `n ≥ 10`. -/
def natToDigitsAux : Nat → Nat → List Char
  | 0, _ => []
  | fuel + 1, n =>
      if n < 10 then [digitChar n]
      else natToDigitsAux fuel (n / 10) ++ [digitChar (n % 10)]

/-- Big-endian decimal digit list of a natural number. -/
def natToDigits (n : Nat) : List Char := natToDigitsAux (n + 1) n

/-- Value of a big-endian decimal digit list. -/
def digitsToNat (l : List Char) : Nat :=
  l.foldl (fun acc c => acc * 10 + (c.toNat - 48)) 0

/-- Model of `Date.prototype.toISOString` applied to the instant `t` (in
milliseconds since the epoch): an injective text encoding of `t`.  The model
uses the decimal numeral of `t` in place of the ISO-8601 date text; both are
injective and satisfy the same parse round trip, the only properties of the
stored text that `PointSystem` relies on. -/
def toISOString (t : Int) : String :=
  if t < 0 then ⟨'-' :: natToDigits t.natAbs⟩ else ⟨natToDigits t.natAbs⟩

/-- Model of `new Date(s).getTime()` on the timestamp texts the system
itself writes (the image of `toISOString`); its value on other strings is
outside the model's scope. -/
def dateGetTime (s : String) : Int :=
  match s.data with
  | [] => 0
  | c :: rest => if c = '-' then -(digitsToNat rest : Int) else (digitsToNat (c :: rest) : Int)

/-- Record kept per user: `type PointData = { score: number; lastClaimedAt: string }`.
An empty `lastClaimedAt` is the "never claimed" sentinel. -/
structure PointData where
  score : Int
  lastClaimedAt : String
deriving DecidableEq, Repr

/-- State of `private points: Points = {}`: the object's own properties in
enumeration order (= insertion order; see the header note on integer
indices). -/
abbrev Points := List (String × PointData)

/-- Property read `this.points[userId]` (first - and, for reachable states,
only - binding of the key). -/
def getPoints (st : Points) (userId : String) : Option PointData :=
  match st with
  | [] => none
  | (k, v) :: rest => if k = userId then some v else getPoints rest userId

/-- In-place mutation of the record object bound to `userId` (field
assignments through the reference returned by `getOrCreateUserPoints`);
property order is unchanged. -/
def updatePoints (st : Points) (userId : String) (d : PointData) : Points :=
  match st with
  | [] => []
  | (k, v) :: rest => if k = userId then (k, d) :: rest else (k, v) :: updatePoints rest userId d

/-- Structured text value produced by `JSON.stringify` or accepted by
`JSON.parse` (object fields in text order). -/
inductive Json where
  | null : Json
  | bool (b : Bool) : Json
  | num (n : Int) : Json
  | str (s : String) : Json
  | arr (elems : List Json) : Json
  | obj (fields : List (String × Json)) : Json

/-- Shape `JSON.stringify` gives one `PointData` record. -/
def pointDataToJson (d : PointData) : Json :=
  Json.obj [( "score", Json.num d.score), ( "lastClaimedAt", Json.str d.lastClaimedAt)]

/-- Shape `JSON.stringify(this.points, ...)` gives the whole mapping. -/
def pointsToJson (st : Points) : Json :=
  Json.obj (st.map fun e => (e.1, pointDataToJson e.2))

/-- Reading of the TypeScript type `PointData` at a parsed `Json` value:
the structure `loadPoints` expects one record to have. -/
def jsonToPointData : Json → Option PointData
  | Json.obj [( "score", Json.num n), ( "lastClaimedAt", Json.str s)] =>
      some { score := n, lastClaimedAt := s }
  | _ => none

/-- Reading of the TypeScript type `Points = Record<string, PointData>` at a
parsed `Json` value: the structure the snapshot is expected to hold. -/
def jsonToPoints : Json → Option Points
  | Json.obj fields =>
      fields.foldr
        (fun e acc =>
          match jsonToPointData e.2, acc with
          | some d, some ps => some ((e.1, d) :: ps)
          | _, _ => none)
        (some [])
  | _ => none

/-- Snapshot file contents as `fs.existsSync` and `JSON.parse` classify
them: absent, present but not syntactically valid JSON (`JSON.parse`
throws a `SyntaxError`), or present and parsed to a `Json` value. -/
inductive SnapshotFile where
  | absent : SnapshotFile
  | unparseable : SnapshotFile
  | parsed (j : Json) : SnapshotFile

/-- Error escaping `loadPoints` (and hence the constructor) at startup. -/
inductive StorageError where
  | syntaxError : StorageError
deriving DecidableEq

/-- Model of `loadPoints` (src/index.ts:38-42): when the file is absent,
`this.points` stays `{}`; otherwise the file is read and `JSON.parse`d -
a `SyntaxError` propagates out of the constructor, and a successfully
parsed value of ANY shape is assigned to `this.points` unvalidated.  The
result is therefore an arbitrary `Json` value, not necessarily a `Points`. -/
def loadPoints : SnapshotFile → Except StorageError Json
  | SnapshotFile.absent => Except.ok (Json.obj [])
  | SnapshotFile.unparseable => Except.error StorageError.syntaxError
  | SnapshotFile.parsed j => Except.ok j

/-- Model of `savePoints` (src/index.ts:44-46): the structure written to the
snapshot file, `JSON.stringify(this.points, null, 2)`. -/
def savePoints (st : Points) : Json :=
  pointsToJson st

/-- Model of `getOrCreateUserPoints` (src/index.ts:48-53).  An existing
record object is always truthy, so `!this.points[userId]` is the absence
test; a missing key is bound to `{ score: 0, lastClaimedAt: '' }` (appended
in enumeration order) and the bound record is returned. -/
def getOrCreateUserPoints (st : Points) (userId : String) : PointData × Points :=
  match getPoints st userId with
  | some d => (d, st)
  | none => ({ score := 0, lastClaimedAt := "" }, st ++ [(userId, { score := 0, lastClaimedAt := "" })])

/-- Model of `canClaimPoints` (src/index.ts:55-60) with its internal
`new Date()` read passed as `now`.  An empty `lastClaimedAt` is falsy and
becomes `new Date(0)`, the epoch.  The float test
`(now - last) / 3600000 >= 24` equals the exact integer test below (see the
header note). -/
def canClaimPoints (lastClaimedAt : String) (now : Int) : Bool :=
  let lastClaimed : Int := if lastClaimedAt = "" then 0 else dateGetTime lastClaimedAt
  decide (24 * 3600000 ≤ now - lastClaimed)

/-- Model of `tryClaimPoints` (src/index.ts:62-73).  `now1` is the clock
read inside `canClaimPoints`, `now2` the later read
`new Date().toISOString()` stored on success (`now1 <= now2` in any real
execution).  Returns (result, final `this.points`, the `savePoints` write
if one happened). -/
def tryClaimPoints (st : Points) (userId : String) (now1 now2 : Int) :
    Bool × Points × Option Json :=
  let r := getOrCreateUserPoints st userId
  if canClaimPoints r.1.lastClaimedAt now1 then
    let st2 := updatePoints r.2 userId
      { score := r.1.score + 1, lastClaimedAt := toISOString now2 }
    (true, st2, some (savePoints st2))
  else
    (false, r.2, none)

/-- Comparator order of `getTopUsers`: the sort comparator
`(a, b) => b[1].score - a[1].score` puts `a` no later than `b` exactly when
it returns a non-positive number, i.e. when `b`'s score is at most `a`'s. -/
def scoreGe (a b : String × PointData) : Prop :=
  b.2.score ≤ a.2.score

instance : DecidableRel scoreGe := fun a b =>
  inferInstanceAs (Decidable (b.2.score ≤ a.2.score))

instance : IsTotal (String × PointData) scoreGe :=
  ⟨fun a b => Int.le_total b.2.score a.2.score⟩

instance : IsTrans (String × PointData) scoreGe :=
  ⟨fun _ _ _ h1 h2 => le_trans h2 h1⟩

/-- Model of `getTopUsers` (src/index.ts:75-79): `Object.entries` lists the
map in enumeration order, `.sort` (stable since ES2019, and `insertionSort`
computes exactly the stable sort) orders by the comparator above, and
`.slice(0, limit)` keeps the first `limit` entries. -/
def getTopUsers (st : Points) (limit : Nat) : List (String × PointData) :=
  (List.insertionSort scoreGe st).take limit

example : getTopUsers [( "A", ⟨5, "" ⟩), ( "B", ⟨9, "" ⟩), ( "C", ⟨9, "" ⟩), ( "D", ⟨1, "" ⟩)] 2
    = [( "B", ⟨9, "" ⟩), ( "C", ⟨9, "" ⟩)] := by decide

/-! ### Helper lemmas on the decimal codec -/

theorem digitChar_toNat {d : Nat} (h : d < 10) : (digitChar d).toNat = 48 + d := by
  interval_cases d <;> rfl

theorem digitsToNat_append (l : List Char) (c : Char) :
    digitsToNat (l ++ [c]) = digitsToNat l * 10 + (c.toNat - 48) := by
  simp [digitsToNat, List.foldl_append]

theorem digitsToNat_natToDigitsAux (fuel : Nat) :
    ∀ n, n < fuel → digitsToNat (natToDigitsAux fuel n) = n := by
  induction fuel with
  | zero => intro n h; omega
  | succ fuel ih =>
    intro n h
    rw [natToDigitsAux]
    split
    · next hlt =>
      simp [digitsToNat, digitChar_toNat hlt]
    · next hlt =>
      rw [digitsToNat_append, ih (n / 10) (by omega), digitChar_toNat (by omega)]
      omega

theorem digitsToNat_natToDigits (n : Nat) : digitsToNat (natToDigits n) = n :=
  digitsToNat_natToDigitsAux (n + 1) n (by omega)

theorem natToDigitsAux_head (fuel : Nat) :
    ∀ n, n < fuel → ∃ d rest, natToDigitsAux fuel n = digitChar d :: rest ∧ d < 10 := by
  induction fuel with
  | zero => intro n h; omega
  | succ fuel ih =>
    intro n h
    rw [natToDigitsAux]
    split
    · next hlt => exact ⟨n, [], rfl, hlt⟩
    · next hlt =>
      obtain ⟨d, rest, hd, hdlt⟩ := ih (n / 10) (by omega)
      exact ⟨d, rest ++ [digitChar (n % 10)], by rw [hd]; rfl, hdlt⟩

theorem natToDigits_head (n : Nat) :
    ∃ d rest, natToDigits n = digitChar d :: rest ∧ d < 10 :=
  natToDigitsAux_head (n + 1) n (by omega)

theorem digitChar_ne_minus {d : Nat} (h : d < 10) : digitChar d ≠ '-' := by
  interval_cases d <;> decide

theorem string_mk_cons_ne_empty (c : Char) (l : List Char) : (⟨c :: l⟩ : String) ≠ "" := by
  intro hcon
  have h2 : (String.mk (c :: l)).data = ("" : String).data := by rw [hcon]
  simp at h2

theorem dateGetTime_cons (c : Char) (l : List Char) :
    dateGetTime ⟨c :: l⟩ =
      if c = '-' then -(digitsToNat l : Int) else (digitsToNat (c :: l) : Int) :=
  rfl

theorem toISOString_ne_empty (t : Int) : toISOString t ≠ "" := by
  obtain ⟨d, rest, hd, _⟩ := natToDigits_head t.natAbs
  unfold toISOString
  split
  · exact string_mk_cons_ne_empty _ _
  · rw [hd]; exact string_mk_cons_ne_empty _ _

theorem dateGetTime_toISOString (t : Int) : dateGetTime (toISOString t) = t := by
  obtain ⟨d, rest, hd, hlt⟩ := natToDigits_head t.natAbs
  have hrt : digitsToNat (digitChar d :: rest) = t.natAbs := by
    rw [← hd]; exact digitsToNat_natToDigits t.natAbs
  have hne := digitChar_ne_minus hlt
  unfold toISOString
  split
  · next hneg =>
    rw [hd, dateGetTime_cons, if_pos rfl, hrt]
    omega
  · next hneg =>
    rw [hd, dateGetTime_cons, if_neg hne, hrt]
    omega

/-! ### Helper lemmas on `getPoints`, `updatePoints`, `getOrCreateUserPoints` -/

theorem getPoints_append (l1 l2 : Points) (u : String) :
    getPoints (l1 ++ l2) u =
      match getPoints l1 u with
      | some d => some d
      | none => getPoints l2 u := by
  induction l1 with
  | nil => simp [getPoints]
  | cons e rest ih =>
    obtain ⟨k, v⟩ := e
    by_cases hk : k = u <;> simp [getPoints, hk, ih]

theorem getPoints_singleton (id u : String) (d : PointData) :
    getPoints [(id, d)] u = if id = u then some d else none := by
  simp [getPoints]

theorem getPoints_updatePoints_self (st : Points) (id : String) (d d0 : PointData)
    (h : getPoints st id = some d0) :
    getPoints (updatePoints st id d) id = some d := by
  induction st with
  | nil => simp [getPoints] at h
  | cons e rest ih =>
    obtain ⟨k, v⟩ := e
    by_cases hk : k = id
    · simp [getPoints, updatePoints, hk]
    · simp [getPoints, updatePoints, hk] at h ⊢
      exact ih h

theorem getPoints_updatePoints_other (st : Points) (id u : String) (d : PointData)
    (h : u ≠ id) :
    getPoints (updatePoints st id d) u = getPoints st u := by
  induction st with
  | nil => rfl
  | cons e rest ih =>
    obtain ⟨k, v⟩ := e
    simp only [updatePoints, getPoints]
    by_cases hk : k = id
    · have hku : ¬(k = u) := fun hku => h (hku ▸ hk)
      rw [if_pos hk]
      simp only [getPoints]
      rw [if_neg hku, if_neg hku]
    · rw [if_neg hk]
      simp only [getPoints]
      by_cases hku : k = u
      · rw [if_pos hku, if_pos hku]
      · rw [if_neg hku, if_neg hku]
        exact ih

theorem getOrCreate_of_none (st : Points) (id : String)
    (h : getPoints st id = none) :
    getOrCreateUserPoints st id =
      ({ score := 0, lastClaimedAt := "" }, st ++ [(id, { score := 0, lastClaimedAt := "" })]) := by
  simp [getOrCreateUserPoints, h]

theorem getOrCreate_of_some (st : Points) (id : String) (d : PointData)
    (h : getPoints st id = some d) :
    getOrCreateUserPoints st id = (d, st) := by
  simp [getOrCreateUserPoints, h]

theorem getPoints_getOrCreate_self (st : Points) (id : String) :
    getPoints (getOrCreateUserPoints st id).2 id = some (getOrCreateUserPoints st id).1 := by
  unfold getOrCreateUserPoints
  cases h : getPoints st id with
  | some d => simpa using h
  | none => simp [getPoints_append, h, getPoints_singleton]

theorem getPoints_getOrCreate_preserve (st : Points) (id u : String) (d : PointData)
    (h : getPoints st u = some d) :
    getPoints (getOrCreateUserPoints st id).2 u = some d := by
  unfold getOrCreateUserPoints
  cases hid : getPoints st id with
  | some d0 => simpa using h
  | none => simp [getPoints_append, h]

theorem getPoints_getOrCreate_other (st : Points) (id u : String)
    (h : u ≠ id) :
    getPoints (getOrCreateUserPoints st id).2 u = getPoints st u := by
  have hidu : ¬(id = u) := fun hh => h hh.symm
  unfold getOrCreateUserPoints
  cases hid : getPoints st id with
  | some d0 => simp
  | none =>
    simp only [getPoints_append, getPoints_singleton, if_neg hidu]
    cases getPoints st u <;> simp

theorem updatePoints_of_none (st : Points) (id : String) (d : PointData)
    (h : getPoints st id = none) :
    updatePoints st id d = st := by
  induction st with
  | nil => rfl
  | cons e rest ih =>
    obtain ⟨k, v⟩ := e
    simp only [getPoints] at h
    by_cases hk : k = id
    · rw [if_pos hk] at h
      cases h
    · rw [if_neg hk] at h
      simp only [updatePoints, if_neg hk, ih h]

theorem goc_nonneg (st : Points) (id : String)
    (h : ∀ v dv, getPoints st v = some dv → 0 ≤ dv.score) :
    ∀ v dv, getPoints (getOrCreateUserPoints st id).2 v = some dv → 0 ≤ dv.score := by
  intro v dv hv
  cases hid : getPoints st id with
  | some d0 =>
    rw [getOrCreate_of_some st id d0 hid] at hv
    exact h v dv hv
  | none =>
    rw [getOrCreate_of_none st id hid] at hv
    rw [getPoints_append] at hv
    cases hst : getPoints st v with
    | some d1 =>
      rw [hst] at hv
      cases hv
      exact h v _ hst
    | none =>
      rw [hst, getPoints_singleton] at hv
      by_cases hidv : id = v
      · rw [if_pos hidv] at hv
        cases hv
        decide
      · rw [if_neg hidv] at hv
        cases hv

theorem goc_fst_nonneg (st : Points) (id : String)
    (h : ∀ v dv, getPoints st v = some dv → 0 ≤ dv.score) :
    0 ≤ (getOrCreateUserPoints st id).1.score := by
  cases hid : getPoints st id with
  | some d0 =>
    rw [getOrCreate_of_some st id d0 hid]
    exact h id d0 hid
  | none =>
    rw [getOrCreate_of_none st id hid]

theorem update_nonneg (st : Points) (id : String) (d : PointData)
    (h : ∀ v dv, getPoints st v = some dv → 0 ≤ dv.score) (hd : 0 ≤ d.score) :
    ∀ v dv, getPoints (updatePoints st id d) v = some dv → 0 ≤ dv.score := by
  intro v dv hv
  by_cases hvid : v = id
  · subst hvid
    cases hst : getPoints st v with
    | none =>
      rw [updatePoints_of_none st v d hst, hst] at hv
      cases hv
    | some d0 =>
      rw [getPoints_updatePoints_self st v d d0 hst] at hv
      cases hv
      exact hd
  · rw [getPoints_updatePoints_other st id v d hvid] at hv
    exact h v dv hv

/-! ### Branch lemmas for `canClaimPoints` and `tryClaimPoints` -/

theorem canClaimPoints_empty (now : Int) :
    canClaimPoints "" now = decide (24 * 3600000 ≤ now) := by
  unfold canClaimPoints
  rw [if_pos rfl]
  simp

theorem canClaimPoints_toISOString (tm now : Int) :
    canClaimPoints (toISOString tm) now = decide (24 * 3600000 ≤ now - tm) := by
  unfold canClaimPoints
  rw [if_neg (toISOString_ne_empty tm), dateGetTime_toISOString]

theorem tryClaim_not_eligible (st : Points) (id : String) (now1 now2 : Int)
    (h : canClaimPoints (getOrCreateUserPoints st id).1.lastClaimedAt now1 = false) :
    tryClaimPoints st id now1 now2 = (false, (getOrCreateUserPoints st id).2, none) := by
  simp only [tryClaimPoints]
  rw [h]
  rfl

theorem tryClaim_eligible (st : Points) (id : String) (now1 now2 : Int)
    (h : canClaimPoints (getOrCreateUserPoints st id).1.lastClaimedAt now1 = true) :
    tryClaimPoints st id now1 now2 =
      (true,
       updatePoints (getOrCreateUserPoints st id).2 id
         { score := (getOrCreateUserPoints st id).1.score + 1,
           lastClaimedAt := toISOString now2 },
       some (savePoints (updatePoints (getOrCreateUserPoints st id).2 id
         { score := (getOrCreateUserPoints st id).1.score + 1,
           lastClaimedAt := toISOString now2 }))) := by
  simp only [tryClaimPoints]
  rw [h]
  rfl

example : toISOString 86400001 ≠ toISOString 86400000 := by decide

example : canClaimPoints (toISOString 0) 86400000 = true := by decide

example : (tryClaimPoints [] "fresh" 0 0).1 = false := by rfl

/-! ### Claim theorems -/

/-- C1: for every user whose record has `lastClaimedAt` equal to the stored
timestamp of instant `tm`, a claim whose eligibility clock reads `tm + dlt`
returns `false` with no mutation (the state is returned unchanged) and no
write for every `0 ≤ dlt < 24` hours, and returns `true` for every
`dlt ≥ 24` hours; the score is incremented (by one, for that user only) in
the `true` case alone. -/
theorem c1_cooldown_exclusion (st : Points) (id : String) (sc tm dlt now2 : Int)
    (hrec : getPoints st id = some { score := sc, lastClaimedAt := toISOString tm }) :
    (0 ≤ dlt → dlt < 24 * 3600000 →
      tryClaimPoints st id (tm + dlt) now2 = (false, st, none)) ∧
    (24 * 3600000 ≤ dlt →
      (tryClaimPoints st id (tm + dlt) now2).1 = true ∧
      getPoints (tryClaimPoints st id (tm + dlt) now2).2.1 id =
        some { score := sc + 1, lastClaimedAt := toISOString now2 } ∧
      ∀ u, u ≠ id → getPoints (tryClaimPoints st id (tm + dlt) now2).2.1 u = getPoints st u) := by
  have hgoc := getOrCreate_of_some st id _ hrec
  constructor
  · intro _h0 hlt
    have hcan : canClaimPoints (getOrCreateUserPoints st id).1.lastClaimedAt (tm + dlt) = false := by
      rw [hgoc]
      show canClaimPoints (toISOString tm) (tm + dlt) = false
      rw [canClaimPoints_toISOString]
      simp only [decide_eq_false_iff_not]
      omega
    rw [tryClaim_not_eligible st id (tm + dlt) now2 hcan, hgoc]
  · intro hge
    have hcan : canClaimPoints (getOrCreateUserPoints st id).1.lastClaimedAt (tm + dlt) = true := by
      rw [hgoc]
      show canClaimPoints (toISOString tm) (tm + dlt) = true
      rw [canClaimPoints_toISOString]
      simp only [decide_eq_true_eq]
      omega
    have heq := tryClaim_eligible st id (tm + dlt) now2 hcan
    refine ⟨by rw [heq], ?_, ?_⟩
    · rw [heq]
      simp only [hgoc]
      exact getPoints_updatePoints_self st id _ _ hrec
    · intro u hu
      rw [heq]
      simp only [hgoc]
      exact getPoints_updatePoints_other st id u _ hu

/-- C1 witness: concrete record claimed at `tm = 1000`; an attempt 0 ms
later is refused without mutation, an attempt 24 hours later succeeds. -/
theorem c1_cooldown_exclusion_witness :
    tryClaimPoints [( "u", { score := 3, lastClaimedAt := toISOString 1000 })] "u" (1000 + 0) 0
      = (false, [( "u", { score := 3, lastClaimedAt := toISOString 1000 })], none) ∧
    (tryClaimPoints [( "u", { score := 3, lastClaimedAt := toISOString 1000 })] "u"
        (1000 + 24 * 3600000) (1000 + 24 * 3600000)).1 = true := by
  constructor
  · exact (c1_cooldown_exclusion [( "u", { score := 3, lastClaimedAt := toISOString 1000 })]
      "u" 3 1000 0 0 rfl).1 (by decide) (by decide)
  · exact ((c1_cooldown_exclusion [( "u", { score := 3, lastClaimedAt := toISOString 1000 })]
      "u" 3 1000 (24 * 3600000) (1000 + 24 * 3600000) rfl).2 (by decide)).1

/-- C2 counterexample: at the instant `0` (the Unix epoch itself, and likewise
any instant less than 24 hours after it) the very first claim of a
never-seen user identifier returns `false` and leaves the score at `0`,
because the unset `lastClaimedAt` is treated as `new Date(0)`; the claim
asserts `true` and score `1` at EVERY instant. -/
theorem c2_counterexample :
    tryClaimPoints [] "fresh" 0 0 =
      (false, [( "fresh", { score := 0, lastClaimedAt := "" })], none) := by
  rfl

/-- C2 (amended): for a user identifier never seen before, `tryClaimPoints`
at eligibility instant `t0` returns `true` and leaves the score at `1`
whenever `t0` is at least 24 hours after the Unix epoch (every realistic
instant); for earlier `t0` it returns `false`, writes nothing, and leaves
the implicitly created record at score `0`, because the unset claim time is
treated as the epoch. -/
theorem c2_first_claim (st : Points) (id : String) (t0 t1 : Int)
    (hfresh : getPoints st id = none) :
    (24 * 3600000 ≤ t0 →
      (tryClaimPoints st id t0 t1).1 = true ∧
      getPoints (tryClaimPoints st id t0 t1).2.1 id =
        some { score := 1, lastClaimedAt := toISOString t1 }) ∧
    (t0 < 24 * 3600000 →
      tryClaimPoints st id t0 t1 =
        (false, st ++ [(id, { score := 0, lastClaimedAt := "" })], none)) := by
  have hgoc := getOrCreate_of_none st id hfresh
  constructor
  · intro hge
    have hcan : canClaimPoints (getOrCreateUserPoints st id).1.lastClaimedAt t0 = true := by
      rw [hgoc]
      show canClaimPoints "" t0 = true
      rw [canClaimPoints_empty]
      simp only [decide_eq_true_eq]
      omega
    have heq := tryClaim_eligible st id t0 t1 hcan
    refine ⟨by rw [heq], ?_⟩
    rw [heq]
    simp only [hgoc]
    have hlook : getPoints (st ++ [(id, { score := 0, lastClaimedAt := "" })]) id =
        some { score := 0, lastClaimedAt := "" } := by
      rw [getPoints_append, hfresh, getPoints_singleton, if_pos rfl]
    have := getPoints_updatePoints_self _ id
      { score := (0 : Int) + 1, lastClaimedAt := toISOString t1 } _ hlook
    rw [this]
    norm_num
  · intro hlt
    have hcan : canClaimPoints (getOrCreateUserPoints st id).1.lastClaimedAt t0 = false := by
      rw [hgoc]
      show canClaimPoints "" t0 = false
      rw [canClaimPoints_empty]
      simp only [decide_eq_false_iff_not]
      omega
    rw [tryClaim_not_eligible st id t0 t1 hcan, hgoc]

/-- C2 witness: a fresh user claiming exactly 24 hours after the epoch
succeeds and ends at score `1`. -/
theorem c2_first_claim_witness :
    (tryClaimPoints [] "u" (24 * 3600000) (24 * 3600000)).1 = true ∧
    getPoints (tryClaimPoints [] "u" (24 * 3600000) (24 * 3600000)).2.1 "u" =
      some { score := 1, lastClaimedAt := toISOString (24 * 3600000) } :=
  (c2_first_claim [] "u" (24 * 3600000) (24 * 3600000) rfl).1 (by decide)

/-- C3 counterexample: an eligible claim whose two `new Date()` reads are one
millisecond apart (clock at `86400000` during the eligibility check, at
`86400001` when `lastClaimedAt` is written) succeeds but stores the
timestamp of the SECOND read, which differs from the instant used in the
eligibility check; the claim asserts they are exactly equal. -/
theorem c3_counterexample :
    (tryClaimPoints [( "u", { score := 3, lastClaimedAt := toISOString 0 })] "u"
        86400000 86400001).2.1 =
      [( "u", { score := 4, lastClaimedAt := toISOString 86400001 })] ∧
    toISOString 86400001 ≠ toISOString 86400000 := by
  exact ⟨rfl, by decide⟩

/-- C3 (amended): for every eligible claim (the record returned by
`getOrCreateUserPoints` passes `canClaimPoints` at the first clock read
`now1`), `tryClaimPoints` increments that user's score by exactly 1, sets
`lastClaimedAt` to the timestamp of the SECOND clock read `now2` (the
`new Date()` of the write, which can be later than the instant used in the
eligibility check), synchronously writes the serialization of the full
updated mapping, and returns `true`. -/
theorem c3_eligible_claim (st : Points) (id : String) (now1 now2 : Int)
    (helig : canClaimPoints (getOrCreateUserPoints st id).1.lastClaimedAt now1 = true) :
    (tryClaimPoints st id now1 now2).1 = true ∧
    (tryClaimPoints st id now1 now2).2.1 =
      updatePoints (getOrCreateUserPoints st id).2 id
        { score := (getOrCreateUserPoints st id).1.score + 1,
          lastClaimedAt := toISOString now2 } ∧
    getPoints (tryClaimPoints st id now1 now2).2.1 id =
      some { score := (getOrCreateUserPoints st id).1.score + 1,
             lastClaimedAt := toISOString now2 } ∧
    (tryClaimPoints st id now1 now2).2.2 =
      some (savePoints (tryClaimPoints st id now1 now2).2.1) := by
  have heq := tryClaim_eligible st id now1 now2 helig
  refine ⟨by rw [heq], by rw [heq], ?_, by rw [heq]⟩
  rw [heq]
  exact getPoints_updatePoints_self _ id _ _ (getPoints_getOrCreate_self st id)

/-- C3 witness: a fresh user at 24 hours past the epoch is eligible; the
theorem applies and the write is the serialization of the new mapping. -/
theorem c3_eligible_claim_witness :
    (tryClaimPoints [] "u" (24 * 3600000) (24 * 3600000)).1 = true ∧
    (tryClaimPoints [] "u" (24 * 3600000) (24 * 3600000)).2.2 =
      some (savePoints (tryClaimPoints [] "u" (24 * 3600000) (24 * 3600000)).2.1) := by
  have h := c3_eligible_claim [] "u" (24 * 3600000) (24 * 3600000) (by decide)
  exact ⟨h.1, h.2.2.2⟩

/-! ### Stability of the ranking sort

The comparator `(a, b) => b[1].score - a[1].score` only looks at scores, so
the stable sort keeps equal-scored entries in enumeration order.  Stability
is stated the classical way: the sort does not change the subsequence of
entries having any fixed score. -/

theorem filter_orderedInsert_pos (p : (String × PointData) → Bool) (x : String × PointData)
    (l : List (String × PointData)) (hx : p x = true)
    (h : ∀ y, ¬scoreGe x y → p y = false) :
    (List.orderedInsert scoreGe x l).filter p = x :: l.filter p := by
  induction l with
  | nil => simp [List.orderedInsert, hx]
  | cons y ys ih =>
    rw [List.orderedInsert]
    split
    · next => simp [List.filter_cons, hx]
    · next hr =>
      simp only [List.filter_cons, h y hr, ih]
      simp

theorem filter_orderedInsert_neg (p : (String × PointData) → Bool) (x : String × PointData)
    (l : List (String × PointData)) (hx : p x = false) :
    (List.orderedInsert scoreGe x l).filter p = l.filter p := by
  induction l with
  | nil => simp [List.orderedInsert, hx]
  | cons y ys ih =>
    rw [List.orderedInsert]
    split
    · simp [List.filter_cons, hx]
    · simp [List.filter_cons, ih]

theorem filter_insertionSort (p : (String × PointData) → Bool)
    (hp : ∀ x y, p x = true → ¬scoreGe x y → p y = false) :
    ∀ l, (List.insertionSort scoreGe l).filter p = l.filter p := by
  intro l
  induction l with
  | nil => rfl
  | cons a l ih =>
    rw [List.insertionSort]
    cases ha : p a with
    | true =>
      rw [filter_orderedInsert_pos p a _ ha (fun y => hp a y ha), ih]
      simp [List.filter_cons, ha]
    | false =>
      rw [filter_orderedInsert_neg p a _ ha, ih]
      simp [List.filter_cons, ha]

/-- C10: ties between users with equal scores are broken by the enumeration
(insertion) order of the mapping: sorting the full ledger does not reorder
the entries holding any fixed score `c`, so an earlier-inserted user appears
earlier among equal scores and the tiebreak is determined by the insertion
history. -/
theorem c10_tiebreak (st : Points) (c : Int) :
    (getTopUsers st st.length).filter (fun e => e.2.score == c) =
      st.filter (fun e => e.2.score == c) := by
  have hlen : getTopUsers st st.length = List.insertionSort scoreGe st := by
    unfold getTopUsers
    rw [← List.length_insertionSort scoreGe st, List.take_length]
  rw [hlen]
  apply filter_insertionSort
  intro x y hx hr
  simp only [beq_iff_eq] at hx
  rw [beq_eq_false_iff_ne]
  unfold scoreGe at hr
  omega

/-- C4: the ranking query returns entries pairwise sorted by score
descending, returns at most `limit` of them, returns the empty sequence on
an empty ledger and at `limit = 0`, and every returned entry is an
unmodified entry of the ledger (the query mutates nothing). -/
theorem c4_top_users (st : Points) (limit : Nat) :
    List.Pairwise scoreGe (getTopUsers st limit) ∧
    (getTopUsers st limit).length ≤ limit ∧
    getTopUsers [] limit = [] ∧
    getTopUsers st 0 = [] ∧
    ∀ e ∈ getTopUsers st limit, e ∈ st := by
  refine ⟨?_, ?_, by simp [getTopUsers], rfl, ?_⟩
  · exact List.Pairwise.sublist (List.take_sublist _ _) (List.sorted_insertionSort scoreGe st)
  · unfold getTopUsers
    rw [List.length_take]
    exact min_le_left _ _
  · intro e he
    have h2 : e ∈ List.insertionSort scoreGe st := List.take_subset _ _ he
    exact (List.mem_insertionSort scoreGe).mp h2

/-- C5: `getOrCreateUserPoints` creates a record with score 0 and unset
claim time when none exists, returns an existing record with the state
unchanged, never changes any existing record, and is idempotent (a second
call on the produced state returns the same record and the same state, so
any number of calls without an intervening claim changes nothing). -/
theorem c5_get_or_create (st : Points) (id : String) :
    (getPoints st id = none →
      getOrCreateUserPoints st id =
        ({ score := 0, lastClaimedAt := "" },
         st ++ [(id, { score := 0, lastClaimedAt := "" })])) ∧
    (∀ d, getPoints st id = some d → getOrCreateUserPoints st id = (d, st)) ∧
    (∀ u d, getPoints st u = some d →
      getPoints (getOrCreateUserPoints st id).2 u = some d) ∧
    getOrCreateUserPoints (getOrCreateUserPoints st id).2 id =
      ((getOrCreateUserPoints st id).1, (getOrCreateUserPoints st id).2) := by
  refine ⟨getOrCreate_of_none st id, fun d => getOrCreate_of_some st id d,
    fun u d => getPoints_getOrCreate_preserve st id u d, ?_⟩
  exact getOrCreate_of_some _ id _ (getPoints_getOrCreate_self st id)

/-- C5 witness: creation on the empty ledger, then a second call returning
the existing record unchanged. -/
theorem c5_get_or_create_witness :
    getOrCreateUserPoints [] "u" =
      ({ score := 0, lastClaimedAt := "" }, [( "u", { score := 0, lastClaimedAt := "" })]) ∧
    getOrCreateUserPoints [( "u", { score := 0, lastClaimedAt := "" })] "u" =
      ({ score := 0, lastClaimedAt := "" }, [( "u", { score := 0, lastClaimedAt := "" })]) :=
  ⟨(c5_get_or_create [] "u").1 rfl,
   (c5_get_or_create [( "u", { score := 0, lastClaimedAt := "" })] "u").2.1
     { score := 0, lastClaimedAt := "" } rfl⟩

/-- C6: the operations preserve the score invariant.  `getOrCreateUserPoints`
leaves every existing record intact; `tryClaimPoints` never decreases any
score - on refusal every existing record is unchanged, on success the
claimer's score becomes exactly its previous value (0 for a fresh user)
plus 1 and every other user's record is untouched; and both operations map a
state of non-negative scores to a state of non-negative scores. -/
theorem c6_score_invariant (st : Points) (id : String) (now1 now2 : Int) (u : String) :
    (∀ d, getPoints st u = some d → getPoints (getOrCreateUserPoints st id).2 u = some d) ∧
    (∀ d, getPoints st u = some d →
      ∃ d2, getPoints (tryClaimPoints st id now1 now2).2.1 u = some d2 ∧ d.score ≤ d2.score) ∧
    ((tryClaimPoints st id now1 now2).1 = false →
      ∀ d, getPoints st u = some d → getPoints (tryClaimPoints st id now1 now2).2.1 u = some d) ∧
    ((tryClaimPoints st id now1 now2).1 = true →
      getPoints (tryClaimPoints st id now1 now2).2.1 id =
        some { score := (getOrCreateUserPoints st id).1.score + 1,
               lastClaimedAt := toISOString now2 } ∧
      (u ≠ id → getPoints (tryClaimPoints st id now1 now2).2.1 u = getPoints st u)) ∧
    ((∀ v dv, getPoints st v = some dv → 0 ≤ dv.score) →
      (∀ v dv, getPoints (getOrCreateUserPoints st id).2 v = some dv → 0 ≤ dv.score) ∧
      (∀ v dv, getPoints (tryClaimPoints st id now1 now2).2.1 v = some dv → 0 ≤ dv.score)) := by
  by_cases hcan : canClaimPoints (getOrCreateUserPoints st id).1.lastClaimedAt now1 = true
  · have heq := tryClaim_eligible st id now1 now2 hcan
    refine ⟨fun d => getPoints_getOrCreate_preserve st id u d, ?_, ?_, ?_, ?_⟩
    · intro d hd
      rw [heq]
      by_cases hu : u = id
      · subst hu
        have hfst : (getOrCreateUserPoints st u).1 = d := by
          rw [getOrCreate_of_some st u d hd]
        refine ⟨_, getPoints_updatePoints_self _ u _ _ (getPoints_getOrCreate_self st u), ?_⟩
        rw [hfst]
        show d.score ≤ d.score + 1
        omega
      · rw [getPoints_updatePoints_other _ id u _ hu, getPoints_getOrCreate_other st id u hu]
        exact ⟨d, hd, le_refl _⟩
    · intro hfalse
      rw [heq] at hfalse
      cases hfalse
    · intro _htrue
      constructor
      · rw [heq]
        exact getPoints_updatePoints_self _ id _ _ (getPoints_getOrCreate_self st id)
      · intro hu
        rw [heq, getPoints_updatePoints_other _ id u _ hu,
          getPoints_getOrCreate_other st id u hu]
    · intro hnn
      refine ⟨goc_nonneg st id hnn, ?_⟩
      rw [heq]
      refine update_nonneg _ id _ (goc_nonneg st id hnn) ?_
      have h3 := goc_fst_nonneg st id hnn
      show 0 ≤ (getOrCreateUserPoints st id).1.score + 1
      omega
  · have hcan' : canClaimPoints (getOrCreateUserPoints st id).1.lastClaimedAt now1 = false := by
      revert hcan
      cases canClaimPoints (getOrCreateUserPoints st id).1.lastClaimedAt now1 <;> simp
    have heq := tryClaim_not_eligible st id now1 now2 hcan'
    refine ⟨fun d => getPoints_getOrCreate_preserve st id u d, ?_, ?_, ?_, ?_⟩
    · intro d hd
      rw [heq]
      exact ⟨d, getPoints_getOrCreate_preserve st id u d hd, le_refl _⟩
    · intro _hfalse d hd
      rw [heq]
      exact getPoints_getOrCreate_preserve st id u d hd
    · intro htrue
      rw [heq] at htrue
      cases htrue
    · intro hnn
      refine ⟨goc_nonneg st id hnn, ?_⟩
      rw [heq]
      exact goc_nonneg st id hnn

/-- C6 witness: a refused claim (cooldown not elapsed) leaves the existing
record exactly as it was; non-negativity is preserved on the result state. -/
theorem c6_score_invariant_witness :
    getPoints (tryClaimPoints [( "u", { score := 5, lastClaimedAt := toISOString 0 })]
        "u" 0 0).2.1 "u" = some { score := 5, lastClaimedAt := toISOString 0 } :=
  (c6_score_invariant [( "u", { score := 5, lastClaimedAt := toISOString 0 })]
      "u" 0 0 "u").2.2.1 (by rfl) { score := 5, lastClaimedAt := toISOString 0 } rfl

/-- C7 counterexample: the empty user identifier is not rejected anywhere -
`getOrCreateUserPoints` silently creates a perfectly normal record under the
key `""` and a claim for `""` succeeds like any other; no operation reports
an InvalidInput error (none exists in the code), contradicting the claim. -/
theorem c7_counterexample :
    getOrCreateUserPoints [] "" =
      ({ score := 0, lastClaimedAt := "" }, [( "", { score := 0, lastClaimedAt := "" })]) ∧
    (tryClaimPoints [] "" (24 * 3600000) (24 * 3600000)).1 = true := by
  exact ⟨rfl, rfl⟩

/-- C7 (amended): the code performs no validation of user identifiers: an
empty identifier is accepted like any other key, and `getOrCreateUserPoints`
silently coerces it into a normal record (score 0, unset claim time)
retrievable under the key `""`; no error value or exception path exists in
either operation. -/
theorem c7_empty_id (st : Points) (h : getPoints st "" = none) :
    getOrCreateUserPoints st "" =
      ({ score := 0, lastClaimedAt := "" },
       st ++ [( "", { score := 0, lastClaimedAt := "" })]) ∧
    getPoints (getOrCreateUserPoints st "").2 "" =
      some { score := 0, lastClaimedAt := "" } := by
  refine ⟨getOrCreate_of_none st _ h, ?_⟩
  rw [getOrCreate_of_none st _ h]
  show getPoints (st ++ [( "", { score := 0, lastClaimedAt := "" })]) "" =
    some { score := 0, lastClaimedAt := "" }
  rw [getPoints_append, h, getPoints_singleton, if_pos rfl]

/-- C7 witness: the amended theorem applied to the empty ledger. -/
theorem c7_empty_id_witness :
    getOrCreateUserPoints [] "" =
      ({ score := 0, lastClaimedAt := "" },
       [( "", { score := 0, lastClaimedAt := "" })]) ∧
    getPoints (getOrCreateUserPoints [] "").2 "" =
      some { score := 0, lastClaimedAt := "" } :=
  c7_empty_id [] rfl

/-- C8 counterexample: a snapshot whose content is the valid JSON text `5` is
not a mapping of string keys to records at all (`jsonToPoints` rejects it),
yet `loadPoints` accepts it without any error and `this.points` becomes the
unvalidated value - no StorageCorrupt failure occurs, contradicting the
claim. -/
theorem c8_counterexample :
    loadPoints (SnapshotFile.parsed (Json.num 5)) = Except.ok (Json.num 5) ∧
    jsonToPoints (Json.num 5) = none := by
  exact ⟨rfl, rfl⟩

/-- C8 (amended): at startup a missing snapshot yields the empty ledger with
no error, and a snapshot that is not syntactically valid JSON makes
initialization fail fatally (the `JSON.parse` SyntaxError escapes the
constructor); but a snapshot holding syntactically valid JSON of the WRONG
structure is accepted unvalidated - initialization does not fail, and the
parsed value, whatever its shape, becomes the ledger. -/
theorem c8_load_snapshot :
    loadPoints SnapshotFile.absent = Except.ok (pointsToJson []) ∧
    loadPoints SnapshotFile.unparseable = Except.error StorageError.syntaxError ∧
    ∀ j : Json, loadPoints (SnapshotFile.parsed j) = Except.ok j := by
  exact ⟨rfl, rfl, fun _ => rfl⟩

/-- Round trip of the codec at the structure level: decoding the serialized
mapping restores every entry exactly.  No key-uniqueness hypothesis is
needed for this entrywise decode. -/
theorem jsonToPoints_pointsToJson (st : Points) :
    jsonToPoints (pointsToJson st) = some st := by
  induction st with
  | nil => rfl
  | cons e rest ih =>
    obtain ⟨k, d⟩ := e
    simp only [pointsToJson, jsonToPoints, List.map_cons, List.foldr_cons] at ih ⊢
    rw [ih]
    rfl

/-- C9: serializing the full mapping, deserializing the result, and
serializing again yields the same mapping: every key is preserved with its
exact score and `lastClaimedAt`.  The hypothesis restricts the statement to
states with no duplicate key, the invariant every reachable ledger satisfies
(a JSON object with duplicate keys would collapse under `JSON.parse`). -/
theorem c9_round_trip (st : Points) (_hkeys : (st.map Prod.fst).Nodup) :
    jsonToPoints (pointsToJson st) = some st ∧
    (jsonToPoints (pointsToJson st)).map pointsToJson = some (pointsToJson st) := by
  refine ⟨jsonToPoints_pointsToJson st, ?_⟩
  rw [jsonToPoints_pointsToJson st]
  rfl

/-- C9 witness: a two-user ledger round-trips exactly. -/
theorem c9_round_trip_witness :
    jsonToPoints (pointsToJson
        [( "a", { score := 2, lastClaimedAt := toISOString 5 }),
         ( "b", { score := 0, lastClaimedAt := "" })]) =
      some [( "a", { score := 2, lastClaimedAt := toISOString 5 }),
            ( "b", { score := 0, lastClaimedAt := "" })] :=
  (c9_round_trip
    [( "a", { score := 2, lastClaimedAt := toISOString 5 }),
     ( "b", { score := 0, lastClaimedAt := "" })] (by decide)).1

/-- C4 witness: the ranking example of the design document - scores A:5,
B:9, C:9, D:1 with limit 2 - is sorted, within the limit, drawn from the
ledger, and equals exactly the two 9-scored users in enumeration order. -/
theorem c4_top_users_witness :
    List.Pairwise scoreGe
      (getTopUsers [( "A", ⟨5, "" ⟩), ( "B", ⟨9, "" ⟩), ( "C", ⟨9, "" ⟩), ( "D", ⟨1, "" ⟩)] 2) ∧
    (getTopUsers [( "A", ⟨5, "" ⟩), ( "B", ⟨9, "" ⟩), ( "C", ⟨9, "" ⟩), ( "D", ⟨1, "" ⟩)] 2).length ≤ 2 ∧
    getTopUsers [( "A", ⟨5, "" ⟩), ( "B", ⟨9, "" ⟩), ( "C", ⟨9, "" ⟩), ( "D", ⟨1, "" ⟩)] 2 =
      [( "B", ⟨9, "" ⟩), ( "C", ⟨9, "" ⟩)] :=
  ⟨(c4_top_users [( "A", ⟨5, "" ⟩), ( "B", ⟨9, "" ⟩), ( "C", ⟨9, "" ⟩), ( "D", ⟨1, "" ⟩)] 2).1,
   (c4_top_users [( "A", ⟨5, "" ⟩), ( "B", ⟨9, "" ⟩), ( "C", ⟨9, "" ⟩), ( "D", ⟨1, "" ⟩)] 2).2.1,
   by decide⟩
